import Mathlib

/-!
# yorozuya-api: the portal session, its response parser and the two handlers

A shallow embedding of `src/yorozuya.go` (with `respond` of `src/http.go`).

* Go strings are modelled as Lean `String`s, i.e. as sequences of code points.
  Every pattern of the source is made of literal text and ASCII classes, so
  matching on code points and matching on the UTF-8 bytes agree.
* `regexp` is modelled by a backtracking matcher that lists the ways a pattern
  can match at a position in the order a backtracking search tries them; the
  first one at the leftmost position is the match Go reports (leftmost-first).
* The remote portal, the HTTP client and its cookie jar are the environment:
  a transition function on an arbitrary world state that answers each POST
  with a body or with a transport error.
* `slog` calls only write to the log and are left out.
-/

namespace Yorozuya

/-! ## `strings` -/

/-- Whether `p` is an initial segment of `s`. -/
def startsWith : List Char → List Char → Bool
  | [], _ => true
  | _ :: _, [] => false
  | p :: ps, c :: cs => p == c && startsWith ps cs

/-- Substring search over the characters of a string. -/
def containsChars (sub : List Char) : List Char → Bool
  | [] => startsWith sub []
  | c :: cs => startsWith sub (c :: cs) || containsChars sub cs

/-- Go `strings.Contains(s, substr)`. -/
def strings_Contains (s substr : String) : Bool :=
  containsChars substr.data s.data

/-! ## `regexp` -/

/-- The regular expressions used by the source: literal characters, character
classes, concatenation, greedy `?` and `*`, and numbered capture groups. -/
inductive Regex where
  | eps : Regex
  | chr : Char → Regex
  | cls : (Char → Bool) → Regex
  | cat : Regex → Regex → Regex
  | opt : Regex → Regex
  | star : Regex → Regex
  | grp : Nat → Regex → Regex

/-- Text captured so far by each group; a group that took no part is empty. -/
abbrev Caps := Nat → List Char

/-- One way a pattern matches at a position: the text it consumed, the text
that remains and the captures. -/
structure Thread where
  consumed : List Char
  rest : List Char
  caps : Caps

/-- Greedy iteration of a matcher `m`: every iteration consumes at least one
character, more iterations are tried before fewer. -/
def starLoop (m : List Char → Caps → List Thread) : Nat → List Char → Caps → List Thread
  | 0, s, cs => [⟨[], s, cs⟩]
  | n + 1, s, cs =>
    ((m s cs).flatMap fun t =>
      if t.consumed = [] then []
      else (starLoop m n t.rest t.caps).map fun u =>
        ⟨t.consumed ++ u.consumed, u.rest, u.caps⟩)
    ++ [⟨[], s, cs⟩]

/-- All the ways `r` matches an initial segment of `s`, in the order in which a
backtracking search finds them. -/
def Regex.run : Regex → List Char → Caps → List Thread
  | .eps, s, cs => [⟨[], s, cs⟩]
  | .chr c, s, cs =>
    match s with
    | [] => []
    | x :: xs => if x = c then [⟨[x], xs, cs⟩] else []
  | .cls p, s, cs =>
    match s with
    | [] => []
    | x :: xs => if p x then [⟨[x], xs, cs⟩] else []
  | .cat a b, s, cs =>
    (a.run s cs).flatMap fun t =>
      (b.run t.rest t.caps).map fun u => ⟨t.consumed ++ u.consumed, u.rest, u.caps⟩
  | .opt a, s, cs => a.run s cs ++ [⟨[], s, cs⟩]
  | .star a, s, cs => starLoop (fun s cs => a.run s cs) s.length s cs
  | .grp i a, s, cs =>
    (a.run s cs).map fun t => ⟨t.consumed, t.rest, Function.update t.caps i t.consumed⟩

/-- Go `(*Regexp).NumSubexp`: the number of capture groups. -/
def Regex.NumSubexp : Regex → Nat
  | .eps => 0
  | .chr _ => 0
  | .cls _ => 0
  | .cat a b => a.NumSubexp + b.NumSubexp
  | .opt a => a.NumSubexp
  | .star a => a.NumSubexp
  | .grp _ a => a.NumSubexp + 1

/-- The submatch slice of a match: the whole match, then the groups 1..n. -/
def Regex.submatches (r : Regex) (t : Thread) : List String :=
  String.mk t.consumed :: (List.range r.NumSubexp).map fun i => String.mk (t.caps (i + 1))

/-- The match of `r` that starts exactly at the head of `s`, if any. -/
def Regex.matchHere (r : Regex) (s : List Char) : Option (List String) :=
  match r.run s (fun _ => []) with
  | [] => none
  | t :: _ => some (r.submatches t)

/-- Leftmost match of `r` in `s`. -/
def Regex.findChars (r : Regex) : List Char → Option (List String)
  | [] => r.matchHere []
  | c :: cs =>
    match r.matchHere (c :: cs) with
    | some m => some m
    | none => r.findChars cs

/-- Go `(*Regexp).FindStringSubmatch`: `none` stands for the nil slice. -/
def Regex.FindStringSubmatch (r : Regex) (s : String) : Option (List String) :=
  r.findChars s.data

/-- A literal string as a pattern. -/
def Regex.lits : List Char → Regex
  | [] => .eps
  | c :: cs => .cat (.chr c) (Regex.lits cs)

/-- Pattern `a+`. -/
def Regex.plus (a : Regex) : Regex := .cat a (.star a)

/-- Class `[0-9a-f]`. -/
def isLowerHex (c : Char) : Bool :=
  ('0'.toNat ≤ c.toNat && c.toNat ≤ '9'.toNat) || ('a'.toNat ≤ c.toNat && c.toNat ≤ 'f'.toNat)

/-- Class `\d`, which is `[0-9]` in Go. -/
def isDigit (c : Char) : Bool := '0'.toNat ≤ c.toNat && c.toNat ≤ '9'.toNat

/-- Class `\s`, which is `[\t\n\f\r ]` in Go. -/
def isSpace (c : Char) : Bool :=
  c = '\t' || c = '\n' || c = Char.ofNat 12 || c = '\r' || c = ' '

/-! ## `src/yorozuya.go` -/

structure YorozuyaCredentials where
  CompanyCode : String
  Username : String
  Password : String
  deriving DecidableEq, Repr

/-- Go `timeRecorderState`; `Unknown` is the zero value. -/
inductive timeRecorderState where
  | timeRecorderStateUnknown
  | timeRecorderStateOff
  | timeRecorderStateOn
  | timeRecorderStateEnd
  deriving DecidableEq, Repr

open timeRecorderState

/-- The data fields of the Go `YorozuyaSession`; the `client` with its cookie
jar belongs to the environment. -/
structure YorozuyaSession where
  csrfKey : String
  csrfValue : String
  startTime : String
  leaveTime : String
  state : timeRecorderState
  deriving DecidableEq, Repr

def authorizedText : String := "<div class=\"user_name\">"

/-- Pattern `name="(__sectag_[0-9a-f]+)" value="([0-9a-f]+)"`. -/
def csrfRegexp : Regex :=
  .cat (Regex.lits "name=\"".data)
    (.cat (.grp 1 (.cat (Regex.lits "__sectag_".data) (Regex.plus (.cls isLowerHex))))
      (.cat (Regex.lits "\" value=\"".data)
        (.cat (.grp 2 (Regex.plus (.cls isLowerHex))) (.chr '"'))))

/-- Pattern `<br\s*/?>\((\d{2}:\d{2})\)`, the common tail of the two time patterns. -/
def timeRecordTail : Regex :=
  .cat (Regex.lits "<br".data)
    (.cat (.star (.cls isSpace))
      (.cat (.opt (.chr '/'))
        (.cat (.chr '>')
          (.cat (.chr '(')
            (.cat
              (.grp 1
                (.cat (.cls isDigit) (.cat (.cls isDigit)
                  (.cat (.chr ':') (.cat (.cls isDigit) (.cls isDigit))))))
              (.chr ')'))))))

/-- Pattern `>出社<br\s*/?>\((\d{2}:\d{2})\)`. -/
def timeRecordStartRegexp : Regex :=
  .cat (Regex.lits ">出社".data) timeRecordTail

/-- Pattern `>退社<br\s*/?>\((\d{2}:\d{2})\)`. -/
def timeRecordLeaveRegexp : Regex :=
  .cat (Regex.lits ">退社".data) timeRecordTail

/-- Go `(*YorozuyaSession).parse`: the session after the call and the returned
error (`none` for nil). -/
def YorozuyaSession.parse (s : YorozuyaSession) (body : String) :
    YorozuyaSession × Option String :=
  if !strings_Contains body authorizedText then (s, some "unauthorized")
  else
    let s :=
      match csrfRegexp.FindStringSubmatch body with
      | some m => { s with csrfKey := m.getD 1 "", csrfValue := m.getD 2 "" }
      | none => s
    let s :=
      match timeRecordStartRegexp.FindStringSubmatch body with
      | some m => { s with startTime := m.getD 1 "" }
      | none => s
    let s :=
      match timeRecordLeaveRegexp.FindStringSubmatch body with
      | some m => { s with leaveTime := m.getD 1 "" }
      | none => s
    let s := if s.startTime = "" ∧ s.leaveTime = "" then
      { s with state := timeRecorderStateOff } else s
    let s := if s.startTime ≠ "" ∧ s.leaveTime = "" then
      { s with state := timeRecorderStateOn } else s
    let s := if s.startTime ≠ "" ∧ s.leaveTime ≠ "" then
      { s with state := timeRecorderStateEnd } else s
    let s := if s.startTime = "" ∧ s.leaveTime ≠ "" then
      { s with state := timeRecorderStateUnknown } else s
    (s, none)

/-- The data of the session built by `NewYorozuyaSession`: every field has its
zero value. -/
def newSession : YorozuyaSession :=
  { csrfKey := "", csrfValue := "", startTime := "", leaveTime := "",
    state := timeRecorderStateUnknown }

/-- Go `map[string]string` (the type `m`), held as the list of its entries in
the order of insertion; a key occurs once. The order is not observable in Go:
the encoded request body lists the entries by key. -/
abbrev Form := List (String × String)

/-- Assignment `obj[k] = v`. -/
def Form.set (f : Form) (k v : String) : Form :=
  if f.any (fun e => e.1 = k) then f.map (fun e => if e.1 = k then (k, v) else e)
  else f ++ [(k, v)]

/-- Index expression `obj[k]` with its presence flag. -/
def Form.get (f : Form) (k : String) : Option String :=
  (f.find? (fun e => e.1 = k)).map (fun e => e.2)

/-- A map literal: the entries are assigned in source order. -/
def Form.lit (entries : List (String × String)) : Form :=
  entries.foldl (fun f e => f.set e.1 e.2) []

/-- Go `timeRecorderType`. -/
abbrev timeRecorderType := Int

def timeRecorderToOn : timeRecorderType := 1
def timeRecorderToOff : timeRecorderType := 2

/-- Go `strconv.Itoa`. -/
def strconv_Itoa (i : Int) : String := toString i

/-- What the process relies on from outside: the JSON decoder applied to a
request body, the cookie-jar constructor, and the HTTP client together with
the remote portal. `PostForm` stands for `s.client.PostForm(YorozuyaBaseURL, form)`
followed by `io.ReadAll`: it answers with the body read or with the error of
either step, and moves the world (cookies, portal) to its next state. -/
structure Env (σ : Type) where
  jsonDecode : String → Option YorozuyaCredentials
  cookiejarNew : Option String
  PostForm : σ → Form → σ × Except String String

/-- The world during one request: the environment state and the forms posted
so far, oldest first. -/
structure World (σ : Type) where
  st : σ
  posts : List Form

/-- Go `(*YorozuyaSession).post`: returns the body and the error. -/
def YorozuyaSession.post {σ : Type} (E : Env σ) (obj : Form) (w : World σ) :
    World σ × String × Option String :=
  let r := E.PostForm w.st obj
  let w1 : World σ := { st := r.1, posts := w.posts ++ [obj] }
  match r.2 with
  | .error err => (w1, "", some err)
  | .ok body => (w1, body, none)

/-- Go `(*YorozuyaSession).Login`. -/
def YorozuyaSession.Login {σ : Type} (E : Env σ) (s : YorozuyaSession)
    (c : YorozuyaCredentials) (w : World σ) : World σ × YorozuyaSession × Option String :=
  let r := YorozuyaSession.post E (Form.lit [
    ("y_companycd", c.CompanyCode),
    ("y_logincd", c.Username),
    ("password", c.Password),
    ("Submit", "Login"),
    ("module", "login"),
    ("trycnt", "1")]) w
  match r.2.2 with
  | some err => (r.1, s, some err)
  | none => (r.1, s.parse r.2.1)

/-- Go `(*YorozuyaSession).TimeRecord`. -/
def YorozuyaSession.TimeRecord {σ : Type} (E : Env σ) (s : YorozuyaSession)
    (typ : timeRecorderType) (w : World σ) : World σ × YorozuyaSession × Option String :=
  let r := YorozuyaSession.post E (Form.lit [
    ("module", "timerecorder"),
    ("action", "timerecorder"),
    (s.csrfKey, s.csrfValue),
    ("timerecorder_stamping_type", strconv_Itoa typ)]) w
  match r.2.2 with
  | some err => (r.1, s, some err)
  | none => (r.1, s.parse r.2.1)

/-- Go `NewYorozuyaSession`: fails exactly when the cookie jar cannot be made. -/
def NewYorozuyaSession {σ : Type} (E : Env σ) : Except String YorozuyaSession :=
  match E.cookiejarNew with
  | some err => .error err
  | none => .ok newSession

/-- The JSON objects the handlers send: `simpleMsg` and `YorozuyaStatus`. -/
inductive Payload where
  | simpleMsg (Message : String)
  | YorozuyaStatus (Message StartTime LeaveTime : String)
  deriving DecidableEq, Repr

/-- What `respond(w, code, obj)` writes. Both payload types hold only strings,
for which the JSON encoder does not fail. -/
structure Response where
  code : Nat
  obj : Payload
  deriving DecidableEq, Repr

def http_StatusOK : Nat := 200
def http_StatusBadRequest : Nat := 400
def http_StatusInternalServerError : Nat := 500

/-- Go `respond` of `src/http.go`. -/
def respond (code : Nat) (obj : Payload) : Response := { code := code, obj := obj }

/-- Go `TimeRecorderToggle`: the world after the request and the response written. -/
def TimeRecorderToggle {σ : Type} (E : Env σ) (st : σ) (reqBody : String) :
    World σ × Response :=
  let w : World σ := { st := st, posts := [] }
  match E.jsonDecode reqBody with
  | none => (w, respond http_StatusBadRequest (.simpleMsg "invalid request body"))
  | some msg =>
    match NewYorozuyaSession E with
    | .error _ => (w, respond http_StatusInternalServerError (.simpleMsg "Internal server error"))
    | .ok s =>
      match YorozuyaSession.Login E s msg w with
      | (w, _, some err) =>
        (w, respond http_StatusInternalServerError (.simpleMsg ("Login error: " ++ err)))
      | (w, s, none) =>
        match s.state with
        | timeRecorderStateOff =>
          match YorozuyaSession.TimeRecord E s timeRecorderToOn w with
          | (w, _, some err) =>
            (w, respond http_StatusInternalServerError
              (.simpleMsg ("Internal server error: " ++ err)))
          | (w, s, none) =>
            (w, respond http_StatusOK (.YorozuyaStatus "OK" s.startTime s.leaveTime))
        | timeRecorderStateOn =>
          match YorozuyaSession.TimeRecord E s timeRecorderToOff w with
          | (w, _, some err) =>
            (w, respond http_StatusInternalServerError
              (.simpleMsg ("Internal server error: " ++ err)))
          | (w, s, none) =>
            (w, respond http_StatusOK (.YorozuyaStatus "OK" s.startTime s.leaveTime))
        | timeRecorderStateEnd =>
          (w, respond http_StatusBadRequest (.simpleMsg "本日は退勤済みです"))
        | timeRecorderStateUnknown =>
          (w, respond http_StatusInternalServerError
            (.simpleMsg "unknown state: buttons not found"))

/-- Go `TimeRecorderStatus`. -/
def TimeRecorderStatus {σ : Type} (E : Env σ) (st : σ) (reqBody : String) :
    World σ × Response :=
  let w : World σ := { st := st, posts := [] }
  match E.jsonDecode reqBody with
  | none => (w, respond http_StatusBadRequest (.simpleMsg "invalid request body"))
  | some msg =>
    match NewYorozuyaSession E with
    | .error _ => (w, respond http_StatusInternalServerError (.simpleMsg "Internal server error"))
    | .ok s =>
      match YorozuyaSession.Login E s msg w with
      | (w, _, some err) =>
        (w, respond http_StatusInternalServerError (.simpleMsg ("Login error: " ++ err)))
      | (w, s, none) =>
        (w, respond http_StatusOK (.YorozuyaStatus "OK" s.startTime s.leaveTime))

/-! ## Vocabulary of the properties -/

/-- The state column of the table over the two time fields (spec, section 4.1):
absent/absent is Off, present/absent is On, present/present is End and
absent/present is Unknown. A time field is absent when it is the empty string. -/
def stateOf (startTime leaveTime : String) : timeRecorderState :=
  if startTime = "" then
    if leaveTime = "" then timeRecorderStateOff else timeRecorderStateUnknown
  else
    if leaveTime = "" then timeRecorderStateOn else timeRecorderStateEnd

/-- A call on a session: `Login` with credentials or `TimeRecord` with a direction. -/
inductive Call where
  | Login (c : YorozuyaCredentials)
  | TimeRecord (typ : timeRecorderType)

/-- The world, the session and the errors returned so far (oldest first). -/
structure Run (σ : Type) where
  world : World σ
  session : YorozuyaSession
  errs : List (Option String)

/-- One call on the session of a run. -/
def Run.step {σ : Type} (E : Env σ) (x : Run σ) (call : Call) : Run σ :=
  match call with
  | .Login c =>
    let r := YorozuyaSession.Login E x.session c x.world
    { world := r.1, session := r.2.1, errs := x.errs ++ [r.2.2] }
  | .TimeRecord typ =>
    let r := YorozuyaSession.TimeRecord E x.session typ x.world
    { world := r.1, session := r.2.1, errs := x.errs ++ [r.2.2] }

/-- A sequence of calls on a newly created session. -/
def runCalls {σ : Type} (E : Env σ) (st : σ) (calls : List Call) : Run σ :=
  calls.foldl (Run.step E) { world := { st := st, posts := [] }, session := newSession, errs := [] }

/-- The entries of the login form (`Login`), as a list. -/
def loginForm (c : YorozuyaCredentials) : Form :=
  [("y_companycd", c.CompanyCode), ("y_logincd", c.Username), ("password", c.Password),
    ("Submit", "Login"), ("module", "login"), ("trycnt", "1")]

/-- The entries of a stamping form with CSRF pair `k`, `v` and direction code `t`. -/
def stampForm (k v t : String) : Form :=
  [("module", "timerecorder"), ("action", "timerecorder"), (k, v),
    ("timerecorder_stamping_type", t)]

/-- The form `TimeRecord` posts, whatever the session holds. -/
def stampLit (s : YorozuyaSession) (typ : timeRecorderType) : Form :=
  Form.lit [("module", "timerecorder"), ("action", "timerecorder"),
    (s.csrfKey, s.csrfValue), ("timerecorder_stamping_type", strconv_Itoa typ)]

/-- What a call leaves: either it fails and the session is as before, or it
succeeds and the state is the table entry of the two times. -/
def CallOutcome (s s1 : YorozuyaSession) (err : Option String) : Prop :=
  (err ≠ none ∧ s1 = s) ∨ (err = none ∧ s1.state = stateOf s1.startTime s1.leaveTime)

/-- The invariant of a run: while every call has failed the session is the new
one; once a call has succeeded the state is the table entry of the two times. -/
def RunInv {σ : Type} (r : Run σ) : Prop :=
  ((∀ e ∈ r.errs, e ≠ none) → r.session = newSession) ∧
  ((∃ e ∈ r.errs, e = none) → r.session.state = stateOf r.session.startTime r.session.leaveTime)

/-! ## Fixtures -/

/-- A page of a logged-in user before arrival: marker and CSRF field, no times. -/
def pageOff : String :=
  "<div class=\"user_name\">u</div><input name=\"__sectag_0a1\" value=\"9f\">" ++
  "<td>出社<br>(--:--)</td><td>退社<br>(--:--)</td>"

/-- A page after arrival: marker, CSRF field and the arrival time. -/
def pageOn : String :=
  "<div class=\"user_name\">u</div><input name=\"__sectag_0a1\" value=\"9f\">" ++
  "<td>出社<br />(09:00)</td><td>退社<br>(--:--)</td>"

/-- A page after departure: marker, CSRF field and both times. -/
def pageEnd : String :=
  "<div class=\"user_name\">u</div><input name=\"__sectag_0a1\" value=\"9f\">" ++
  "<td>出社<br />(09:00)</td><td>退社<br>(18:30)</td>"

/-- A page that shows a departure time only. -/
def pageLeaveOnly : String :=
  "<div class=\"user_name\">u</div><input name=\"__sectag_0a1\" value=\"9f\">" ++
  "<td>出社<br>(--:--)</td><td>退社<br>(18:30)</td>"

/-- A page with the marker and nothing else of interest. -/
def pageBare : String := "<div class=\"user_name\">u</div>"

/-- The login page as shown to a visitor who is not logged in: no marker, yet
a CSRF field and a time stamp. -/
def pageDenied : String :=
  "<form><input name=\"__sectag_0a1\" value=\"9f\"></form><td>出社<br>(09:00)</td>"

def someCredentials : YorozuyaCredentials :=
  { CompanyCode := "c", Username := "u", Password := "p" }

/-- An environment whose state counts the requests answered and whose portal
answers the n-th request with the n-th page of `pages` (with `pageBare` once
the list is used up). -/
def scriptedEnv (pages : List String) : Env Nat :=
  { jsonDecode := fun _ => some someCredentials
    cookiejarNew := none
    PostForm := fun n _ => (n + 1, .ok (pages.getD n pageBare)) }

/-- An environment whose portal answers a form by its direction code: `pageEnd`
to a departure stamp ("2") and `pageOn` to every other form, the arrival stamp
("1") and the login form included. -/
def directionEnv : Env Nat :=
  { jsonDecode := fun _ => some someCredentials
    cookiejarNew := none
    PostForm := fun n f =>
      (n + 1, .ok (if f.get "timerecorder_stamping_type" = some "2" then pageEnd else pageOn)) }

end Yorozuya

namespace Yorozuya
open timeRecorderState

/-! ## Facts about the matcher -/

theorem startsWith_iff (p s : List Char) : startsWith p s = true ↔ ∃ b, s = p ++ b := by
  induction p generalizing s with
  | nil => simp [startsWith]
  | cons x xs ih =>
    cases s with
    | nil => simp [startsWith]
    | cons c cs =>
      simp only [startsWith, Bool.and_eq_true, beq_iff_eq, ih, List.cons_append, List.cons.injEq]
      constructor
      · rintro ⟨rfl, b, rfl⟩
        exact ⟨b, rfl, rfl⟩
      · rintro ⟨b, rfl, rfl⟩
        exact ⟨rfl, b, rfl⟩

theorem containsChars_iff (sub s : List Char) :
    containsChars sub s = true ↔ ∃ a b, s = a ++ sub ++ b := by
  induction s with
  | nil =>
    simp only [containsChars, startsWith_iff]
    constructor
    · rintro ⟨b, h⟩
      exact ⟨[], b, by simpa using h⟩
    · rintro ⟨a, b, h⟩
      have h1 : a ++ sub ++ b = [] := h.symm
      simp only [List.append_eq_nil] at h1
      exact ⟨[], by simp [h1.1.2]⟩
  | cons c cs ih =>
    simp only [containsChars, Bool.or_eq_true, startsWith_iff, ih]
    constructor
    · rintro (⟨b, h⟩ | ⟨a, b, h⟩)
      · exact ⟨[], b, by simpa using h⟩
      · exact ⟨c :: a, b, by simp [h]⟩
    · rintro ⟨a, b, h⟩
      cases a with
      | nil => exact Or.inl ⟨b, by simpa using h⟩
      | cons x a =>
        simp only [List.cons_append, List.cons.injEq] at h
        exact Or.inr ⟨a, b, by simpa using h.2⟩

theorem mem_run_chr {c : Char} {s : List Char} {cs : Caps} {t : Thread}
    (h : t ∈ (Regex.chr c).run s cs) : t.consumed = [c] ∧ s = c :: t.rest ∧ t.caps = cs := by
  cases s with
  | nil => simp [Regex.run] at h
  | cons x xs =>
    simp only [Regex.run] at h
    split at h
    · simp only [List.mem_singleton] at h
      subst h
      simp_all
    · simp at h

theorem mem_run_cls {p : Char → Bool} {s : List Char} {cs : Caps} {t : Thread}
    (h : t ∈ (Regex.cls p).run s cs) :
    ∃ x, p x = true ∧ t.consumed = [x] ∧ s = x :: t.rest ∧ t.caps = cs := by
  cases s with
  | nil => simp [Regex.run] at h
  | cons x xs =>
    simp only [Regex.run] at h
    split at h
    · simp only [List.mem_singleton] at h
      subst h
      exact ⟨x, by assumption, rfl, rfl, rfl⟩
    · simp at h

theorem mem_run_cat {a b : Regex} {s : List Char} {cs : Caps} {t : Thread}
    (h : t ∈ (Regex.cat a b).run s cs) :
    ∃ t1 ∈ a.run s cs, ∃ u ∈ b.run t1.rest t1.caps,
      t.consumed = t1.consumed ++ u.consumed ∧ t.rest = u.rest ∧ t.caps = u.caps := by
  simp only [Regex.run, List.mem_flatMap, List.mem_map] at h
  obtain ⟨t1, h1, u, hu, rfl⟩ := h
  exact ⟨t1, h1, u, hu, rfl, rfl, rfl⟩

theorem mem_run_grp {i : Nat} {a : Regex} {s : List Char} {cs : Caps} {t : Thread}
    (h : t ∈ (Regex.grp i a).run s cs) :
    ∃ t1 ∈ a.run s cs, t.consumed = t1.consumed ∧ t.rest = t1.rest ∧
      t.caps = Function.update t1.caps i t1.consumed := by
  simp only [Regex.run, List.mem_map] at h
  obtain ⟨t1, h1, rfl⟩ := h
  exact ⟨t1, h1, rfl, rfl, rfl⟩

theorem mem_run_lits {l s : List Char} {cs : Caps} {t : Thread}
    (h : t ∈ (Regex.lits l).run s cs) : t.consumed = l ∧ s = l ++ t.rest ∧ t.caps = cs := by
  induction l generalizing s cs t with
  | nil =>
    simp only [Regex.lits, Regex.run, List.mem_singleton] at h
    subst h
    simp
  | cons c l ih =>
    obtain ⟨t1, h1, u, hu, hc, hr, hcap⟩ := mem_run_cat h
    obtain ⟨h1c, h1s, h1cap⟩ := mem_run_chr h1
    obtain ⟨huc, hus, hucap⟩ := ih hu
    refine ⟨by simp [hc, h1c, huc], ?_, by simp [hcap, hucap, h1cap]⟩
    rw [h1s, hus, hr]
    simp

theorem starLoop_caps {m : List Char → Caps → List Thread}
    (hm : ∀ s cs t, t ∈ m s cs → t.caps = cs) (n : Nat) (s : List Char) (cs : Caps)
    (t : Thread) (h : t ∈ starLoop m n s cs) : t.caps = cs := by
  induction n generalizing s cs t with
  | zero =>
    simp only [starLoop, List.mem_singleton] at h
    subst h
    rfl
  | succ n ih =>
    simp only [starLoop, List.mem_append, List.mem_flatMap, List.mem_singleton] at h
    rcases h with ⟨t1, h1, h2⟩ | h
    · split at h2
      · simp at h2
      · simp only [List.mem_map] at h2
        obtain ⟨u, hu, rfl⟩ := h2
        simp only
        rw [ih _ _ _ hu, hm _ _ _ h1]
    · subst h
      rfl

/-- A pattern without capture groups leaves the captures as they are. -/
theorem run_caps_of_no_group (r : Regex) (hr : r.NumSubexp = 0) (s : List Char) (cs : Caps)
    (t : Thread) (h : t ∈ r.run s cs) : t.caps = cs := by
  induction r generalizing s cs t with
  | eps =>
    simp only [Regex.run, List.mem_singleton] at h
    subst h
    rfl
  | chr c => exact (mem_run_chr h).2.2
  | cls p =>
    obtain ⟨x, _, _, _, hc⟩ := mem_run_cls h
    exact hc
  | cat a b iha ihb =>
    simp only [Regex.NumSubexp, Nat.add_eq_zero] at hr
    obtain ⟨t1, h1, u, hu, _, _, hcap⟩ := mem_run_cat h
    rw [hcap, ihb hr.2 _ _ _ hu, iha hr.1 _ _ _ h1]
  | opt a ih =>
    simp only [Regex.NumSubexp] at hr
    simp only [Regex.run, List.mem_append, List.mem_singleton] at h
    rcases h with h | h
    · exact ih hr _ _ _ h
    · subst h
      rfl
  | star a ih =>
    simp only [Regex.NumSubexp] at hr
    simp only [Regex.run] at h
    exact starLoop_caps (fun s cs t ht => ih hr s cs t ht) _ _ _ _ h
  | grp i a _ => simp [Regex.NumSubexp] at hr

theorem findChars_some {r : Regex} {s : List Char} {m : List String}
    (h : r.findChars s = some m) :
    ∃ s1 t, t ∈ r.run s1 (fun _ => []) ∧ m = r.submatches t := by
  have key : ∀ s1, r.matchHere s1 = some m →
      ∃ t, t ∈ r.run s1 (fun _ => []) ∧ m = r.submatches t := by
    intro s1 h1
    unfold Regex.matchHere at h1
    split at h1
    · simp at h1
    · next t ts heq =>
      simp only [Option.some.injEq] at h1
      exact ⟨t, by simp [heq], h1.symm⟩
  induction s with
  | nil =>
    obtain ⟨t, ht, hm⟩ := key [] (by simpa [Regex.findChars] using h)
    exact ⟨[], t, ht, hm⟩
  | cons c cs ih =>
    simp only [Regex.findChars] at h
    split at h
    · next m1 heq =>
      simp only [Option.some.injEq] at h
      subst h
      obtain ⟨t, ht, hm⟩ := key _ heq
      exact ⟨_, t, ht, hm⟩
    · exact ih h

/-- The text a `+` of a character class consumes is not empty. -/
theorem mem_run_plus_cls {p : Char → Bool} {s : List Char} {cs : Caps} {t : Thread}
    (h : t ∈ (Regex.plus (.cls p)).run s cs) : t.consumed ≠ [] ∧ t.caps = cs := by
  have hc := run_caps_of_no_group (Regex.plus (.cls p)) (by simp [Regex.plus, Regex.NumSubexp])
    s cs t h
  obtain ⟨t1, h1, u, _, hcon, _, _⟩ := mem_run_cat h
  obtain ⟨x, _, hx, _, _⟩ := mem_run_cls h1
  exact ⟨by simp [hcon, hx], hc⟩

/-- What a match of the CSRF pattern captures: group 1 is `__sectag_` followed
by at least one character, group 2 is not empty. -/
theorem csrfRegexp_captures {body : String} {m : List String}
    (h : csrfRegexp.FindStringSubmatch body = some m) :
    ∃ k v : List Char, k ≠ [] ∧ v ≠ [] ∧
      m.getD 1 "" = String.mk ("__sectag_".data ++ k) ∧ m.getD 2 "" = String.mk v := by
  obtain ⟨s1, t, ht, rfl⟩ := findChars_some h
  unfold csrfRegexp at ht
  obtain ⟨t1, h1, u1, hu1, -, -, hcap1⟩ := mem_run_cat ht
  obtain ⟨-, -, h1cap⟩ := mem_run_lits h1
  obtain ⟨t2, h2, u2, hu2, -, -, hcap2⟩ := mem_run_cat hu1
  obtain ⟨t3, h3, -, -, h2cap⟩ := mem_run_grp h2
  obtain ⟨t4, h4, u4, hu4, h3con, -, -⟩ := mem_run_cat h3
  obtain ⟨h4con, -, -⟩ := mem_run_lits h4
  obtain ⟨hu4con, -⟩ := mem_run_plus_cls hu4
  obtain ⟨t5, h5, u5, hu5, -, -, hcap5⟩ := mem_run_cat hu2
  obtain ⟨-, -, h5cap⟩ := mem_run_lits h5
  obtain ⟨t6, h6, u6, hu6, -, -, hcap6⟩ := mem_run_cat hu5
  obtain ⟨t7, h7, -, -, h6cap⟩ := mem_run_grp h6
  obtain ⟨h7con, -⟩ := mem_run_plus_cls h7
  have h7cap := (mem_run_plus_cls h7).2
  obtain ⟨-, -, hu6cap⟩ := mem_run_chr hu6
  have hcaps : t.caps = Function.update (Function.update t3.caps 1 t3.consumed) 2 t7.consumed := by
    rw [hcap1, hcap2, hcap5, hcap6, hu6cap, h6cap, h7cap, h5cap, h2cap]
  refine ⟨u4.consumed, t7.consumed, hu4con, h7con, ?_, ?_⟩
  · simp [Regex.submatches, csrfRegexp, Regex.NumSubexp, Regex.lits, Regex.plus, List.range_succ,
      hcaps, h3con, h4con]
  · simp [Regex.submatches, csrfRegexp, Regex.NumSubexp, Regex.lits, Regex.plus, List.range_succ,
      hcaps]

/-- What the common tail of the time patterns captures: `dd:dd`. -/
theorem timeRecordTail_captures {s : List Char} {cs : Caps} {t : Thread}
    (h : t ∈ timeRecordTail.run s cs) :
    ∃ a b c d : Char, isDigit a = true ∧ isDigit b = true ∧ isDigit c = true ∧
      isDigit d = true ∧ t.caps 1 = [a, b, ':', c, d] := by
  unfold timeRecordTail at h
  obtain ⟨t1, -, u1, hu1, -, -, hcap1⟩ := mem_run_cat h
  obtain ⟨t2, -, u2, hu2, -, -, hcap2⟩ := mem_run_cat hu1
  obtain ⟨t3, -, u3, hu3, -, -, hcap3⟩ := mem_run_cat hu2
  obtain ⟨t4, -, u4, hu4, -, -, hcap4⟩ := mem_run_cat hu3
  obtain ⟨t5, -, u5, hu5, -, -, hcap5⟩ := mem_run_cat hu4
  obtain ⟨t6, h6, u6, hu6, -, -, hcap6⟩ := mem_run_cat hu5
  obtain ⟨-, -, hu6cap⟩ := mem_run_chr hu6
  obtain ⟨g, hg, -, -, h6cap⟩ := mem_run_grp h6
  obtain ⟨d1, hd1, e1, he1, hg1, -, -⟩ := mem_run_cat hg
  obtain ⟨d2, hd2, e2, he2, hg2, -, -⟩ := mem_run_cat he1
  obtain ⟨d3, hd3, e3, he3, hg3, -, -⟩ := mem_run_cat he2
  obtain ⟨d4, hd4, e4, he4, hg4, -, -⟩ := mem_run_cat he3
  obtain ⟨a, ha, hac, -, -⟩ := mem_run_cls hd1
  obtain ⟨b, hb, hbc, -, -⟩ := mem_run_cls hd2
  obtain ⟨hcc, -, -⟩ := mem_run_chr hd3
  obtain ⟨c, hc, hcc2, -, -⟩ := mem_run_cls hd4
  obtain ⟨d, hd, hdc, -, -⟩ := mem_run_cls he4
  refine ⟨a, b, c, d, ha, hb, hc, hd, ?_⟩
  rw [hcap1, hcap2, hcap3, hcap4, hcap5, hcap6, hu6cap, h6cap]
  simp [hg1, hg2, hg3, hg4, hac, hbc, hcc, hcc2, hdc]

theorem timeRegexp_captures (pre : List Char) {body : String} {m : List String}
    (h : (Regex.cat (Regex.lits pre) timeRecordTail).FindStringSubmatch body = some m) :
    ∃ a b c d : Char, isDigit a = true ∧ isDigit b = true ∧ isDigit c = true ∧
      isDigit d = true ∧ m.getD 1 "" = String.mk [a, b, ':', c, d] := by
  obtain ⟨s1, t, ht, rfl⟩ := findChars_some h
  obtain ⟨t1, -, u1, hu1, -, -, hcap1⟩ := mem_run_cat ht
  obtain ⟨a, b, c, d, ha, hb, hc, hd, hcap⟩ := timeRecordTail_captures hu1
  refine ⟨a, b, c, d, ha, hb, hc, hd, ?_⟩
  have hn : (Regex.cat (Regex.lits pre) timeRecordTail).NumSubexp = 1 := by
    have hl : ∀ l : List Char, (Regex.lits l).NumSubexp = 0 := by
      intro l
      induction l with
      | nil => rfl
      | cons c l ih => simp [Regex.lits, Regex.NumSubexp, ih]
    simp [Regex.NumSubexp, hl, timeRecordTail, Regex.lits]
  simp [Regex.submatches, hn, hcap1, hcap]

theorem timeRecordStartRegexp_captures {body : String} {m : List String}
    (h : timeRecordStartRegexp.FindStringSubmatch body = some m) : m.getD 1 "" ≠ "" := by
  obtain ⟨a, b, c, d, -, -, -, -, hm⟩ := timeRegexp_captures _ h
  rw [hm]
  intro hc
  have := congrArg String.data hc
  simp at this

theorem timeRecordLeaveRegexp_captures {body : String} {m : List String}
    (h : timeRecordLeaveRegexp.FindStringSubmatch body = some m) : m.getD 1 "" ≠ "" := by
  obtain ⟨a, b, c, d, -, -, -, -, hm⟩ := timeRegexp_captures _ h
  rw [hm]
  intro hc
  have := congrArg String.data hc
  simp at this

/-! ## The patterns on sample text -/

theorem csrfRegexp_on_pageOn :
    csrfRegexp.FindStringSubmatch pageOn =
      some ["name=\"__sectag_0a1\" value=\"9f\"", "__sectag_0a1", "9f"] := by
  decide

theorem csrfRegexp_leftmost :
    csrfRegexp.FindStringSubmatch
        "<input name=\"__sectag_1\" value=\"a\"><input name=\"__sectag_2\" value=\"b\">" =
      some ["name=\"__sectag_1\" value=\"a\"", "__sectag_1", "a"] := by
  decide

theorem csrfRegexp_rejects_upper_case :
    csrfRegexp.FindStringSubmatch "<input name=\"__sectag_0A\" value=\"9f\">" = none := by
  decide

theorem timeRecordStartRegexp_spaced_break :
    timeRecordStartRegexp.FindStringSubmatch "<td>出社<br  \n/>(09:00)</td>" =
      some [">出社<br  \n/>(09:00)", "09:00"] := by
  decide

theorem timeRecordStartRegexp_needs_four_digits :
    timeRecordStartRegexp.FindStringSubmatch "<td>出社<br>(9:00)</td>" = none := by
  decide

theorem timeRecordLeaveRegexp_on_pageEnd :
    timeRecordLeaveRegexp.FindStringSubmatch pageEnd = some [">退社<br>(18:30)", "18:30"] := by
  decide

/-! ## The response parser -/

theorem strings_Contains_iff (s sub : String) :
    strings_Contains s sub = true ↔ ∃ a b : List Char, s.data = a ++ sub.data ++ b := by
  unfold strings_Contains
  exact containsChars_iff _ _

theorem parse_unauthorized (s : YorozuyaSession) (body : String)
    (h : strings_Contains body authorizedText = false) :
    s.parse body = (s, some "unauthorized") := by
  simp [YorozuyaSession.parse, h]

theorem stateOf_cases (a b : String) :
    (a = "" ∧ b = "" → stateOf a b = timeRecorderStateOff) ∧
    (a ≠ "" ∧ b = "" → stateOf a b = timeRecorderStateOn) ∧
    (a ≠ "" ∧ b ≠ "" → stateOf a b = timeRecorderStateEnd) ∧
    (a = "" ∧ b ≠ "" → stateOf a b = timeRecorderStateUnknown) := by
  unfold stateOf
  by_cases ha : a = "" <;> by_cases hb : b = "" <;> simp [ha, hb]

/-- The session a successful parse leaves: each field is the capture of its
pattern when the pattern matches and the value held before otherwise, and the
state is read off the two resulting time fields. -/
theorem parse_authorized (s : YorozuyaSession) (body : String)
    (h : strings_Contains body authorizedText = true) :
    (s.parse body).2 = none ∧
    (s.parse body).1.csrfKey =
      (match csrfRegexp.FindStringSubmatch body with
        | some m => m.getD 1 ""
        | none => s.csrfKey) ∧
    (s.parse body).1.csrfValue =
      (match csrfRegexp.FindStringSubmatch body with
        | some m => m.getD 2 ""
        | none => s.csrfValue) ∧
    (s.parse body).1.startTime =
      (match timeRecordStartRegexp.FindStringSubmatch body with
        | some m => m.getD 1 ""
        | none => s.startTime) ∧
    (s.parse body).1.leaveTime =
      (match timeRecordLeaveRegexp.FindStringSubmatch body with
        | some m => m.getD 1 ""
        | none => s.leaveTime) ∧
    (s.parse body).1.state =
      stateOf (s.parse body).1.startTime (s.parse body).1.leaveTime := by
  obtain ⟨r, hr⟩ : ∃ r, s.parse body = r := ⟨_, rfl⟩
  rw [hr]
  unfold YorozuyaSession.parse at hr
  rw [if_neg (by simp [h])] at hr
  generalize csrfRegexp.FindStringSubmatch body = mc at hr ⊢
  generalize timeRecordStartRegexp.FindStringSubmatch body = ms at hr ⊢
  generalize timeRecordLeaveRegexp.FindStringSubmatch body = ml at hr ⊢
  lift_lets at hr
  extract_lets s1 s2 s3 s4 s5 s6 s7 at hr
  subst hr
  have e7 : s7 = { s3 with state := stateOf s3.startTime s3.leaveTime } := by
    by_cases ha : s3.startTime = "" <;> by_cases hb : s3.leaveTime = "" <;>
      simp [s7, s6, s5, s4, ha, hb, stateOf]
  refine ⟨rfl, ?_, ?_, ?_, ?_, ?_⟩
  · show s7.csrfKey = _
    rw [e7]
    cases mc <;> cases ms <;> cases ml <;> rfl
  · show s7.csrfValue = _
    rw [e7]
    cases mc <;> cases ms <;> cases ml <;> rfl
  · show s7.startTime = _
    rw [e7]
    cases mc <;> cases ms <;> cases ml <;> rfl
  · show s7.leaveTime = _
    rw [e7]
    cases mc <;> cases ms <;> cases ml <;> rfl
  · show s7.state = stateOf s7.startTime s7.leaveTime
    rw [e7]

/-! ## The session operations -/

theorem loginForm_lit (c : YorozuyaCredentials) :
    Form.lit [("y_companycd", c.CompanyCode), ("y_logincd", c.Username),
      ("password", c.Password), ("Submit", "Login"), ("module", "login"), ("trycnt", "1")]
      = loginForm c := by
  simp [Form.lit, Form.set, loginForm]

theorem sectag_ne_fixed (k : List Char) :
    String.mk ("__sectag_".data ++ k) ≠ "module" ∧
    String.mk ("__sectag_".data ++ k) ≠ "action" ∧
    String.mk ("__sectag_".data ++ k) ≠ "timerecorder_stamping_type" := by
  refine ⟨?_, ?_, ?_⟩ <;>
  · intro hc
    have := congrArg String.data hc
    simp at this

/-- The stamping literal has four entries when the CSRF key is none of the
three fixed keys. -/
theorem stampForm_lit (k v t : String) (h1 : k ≠ "module") (h2 : k ≠ "action")
    (h3 : k ≠ "timerecorder_stamping_type") :
    Form.lit [("module", "timerecorder"), ("action", "timerecorder"), (k, v),
      ("timerecorder_stamping_type", t)] = stampForm k v t := by
  have h1' : ¬ "module" = k := fun h => h1 h.symm
  have h2' : ¬ "action" = k := fun h => h2 h.symm
  have h3' : ¬ k = "timerecorder_stamping_type" := h3
  simp [Form.lit, Form.set, stampForm, h1', h2', h3']

theorem stampForm_lit_empty (t : String) :
    Form.lit [("module", "timerecorder"), ("action", "timerecorder"), ("", ""),
      ("timerecorder_stamping_type", t)] = stampForm "" "" t :=
  stampForm_lit "" "" t (by decide) (by decide) (by decide)

theorem Login_ok {σ : Type} (E : Env σ) (s : YorozuyaSession) (c : YorozuyaCredentials)
    (w : World σ) (st1 : σ) (page : String)
    (h : E.PostForm w.st (loginForm c) = (st1, .ok page)) :
    YorozuyaSession.Login E s c w =
      ({ st := st1, posts := w.posts ++ [loginForm c] }, s.parse page) := by
  simp [YorozuyaSession.Login, YorozuyaSession.post, loginForm_lit, h]

theorem Login_error {σ : Type} (E : Env σ) (s : YorozuyaSession) (c : YorozuyaCredentials)
    (w : World σ) (st1 : σ) (err : String)
    (h : E.PostForm w.st (loginForm c) = (st1, .error err)) :
    YorozuyaSession.Login E s c w =
      ({ st := st1, posts := w.posts ++ [loginForm c] }, s, some err) := by
  simp [YorozuyaSession.Login, YorozuyaSession.post, loginForm_lit, h]

theorem TimeRecord_ok {σ : Type} (E : Env σ) (s : YorozuyaSession) (typ : timeRecorderType)
    (w : World σ) (st1 : σ) (page : String)
    (h : E.PostForm w.st (stampLit s typ) = (st1, .ok page)) :
    YorozuyaSession.TimeRecord E s typ w =
      ({ st := st1, posts := w.posts ++ [stampLit s typ] }, s.parse page) := by
  unfold stampLit at h
  simp [YorozuyaSession.TimeRecord, YorozuyaSession.post, stampLit, h]

theorem TimeRecord_error {σ : Type} (E : Env σ) (s : YorozuyaSession) (typ : timeRecorderType)
    (w : World σ) (st1 : σ) (err : String)
    (h : E.PostForm w.st (stampLit s typ) = (st1, .error err)) :
    YorozuyaSession.TimeRecord E s typ w =
      ({ st := st1, posts := w.posts ++ [stampLit s typ] }, s, some err) := by
  unfold stampLit at h
  simp [YorozuyaSession.TimeRecord, YorozuyaSession.post, stampLit, h]

theorem parse_new_state (page : String) (h : strings_Contains page authorizedText = true) :
    (newSession.parse page).1.state =
      (match (timeRecordStartRegexp.FindStringSubmatch page).isSome,
          (timeRecordLeaveRegexp.FindStringSubmatch page).isSome with
        | false, false => timeRecorderStateOff
        | true, false => timeRecorderStateOn
        | true, true => timeRecorderStateEnd
        | false, true => timeRecorderStateUnknown) := by
  obtain ⟨-, -, -, ha, hl, hs⟩ := parse_authorized newSession page h
  rw [hs, ha, hl]
  cases hms : timeRecordStartRegexp.FindStringSubmatch page with
  | none =>
    cases hml : timeRecordLeaveRegexp.FindStringSubmatch page with
    | none => simp only [stateOf, newSession, Option.isSome, if_true]
    | some m =>
      have := timeRecordLeaveRegexp_captures hml
      simp only [stateOf, newSession, Option.isSome, if_true, this, if_false]
  | some m0 =>
    have h0 := timeRecordStartRegexp_captures hms
    cases hml : timeRecordLeaveRegexp.FindStringSubmatch page with
    | none => simp only [stateOf, newSession, Option.isSome, if_true, h0, if_false]
    | some m =>
      have := timeRecordLeaveRegexp_captures hml
      simp only [stateOf, newSession, Option.isSome, this, h0, if_false]

theorem parse_ok_eq (s : YorozuyaSession) (page : String)
    (h : strings_Contains page authorizedText = true) :
    s.parse page = ((s.parse page).1, none) :=
  Prod.ext rfl (parse_authorized s page h).1

/-- The toggle handler after a login whose page carries the marker. -/
theorem toggle_login_ok {σ : Type} (E : Env σ) (st st1 : σ) (req page : String)
    (c : YorozuyaCredentials)
    (hdec : E.jsonDecode req = some c) (hjar : E.cookiejarNew = none)
    (hpost : E.PostForm st (loginForm c) = (st1, .ok page))
    (hauth : strings_Contains page authorizedText = true) :
    TimeRecorderToggle E st req =
      (match (newSession.parse page).1.state with
        | timeRecorderStateOff =>
          match YorozuyaSession.TimeRecord E (newSession.parse page).1 timeRecorderToOn
              { st := st1, posts := [loginForm c] } with
          | (w, _, some err) =>
            (w, respond http_StatusInternalServerError
              (.simpleMsg ("Internal server error: " ++ err)))
          | (w, s, none) =>
            (w, respond http_StatusOK (.YorozuyaStatus "OK" s.startTime s.leaveTime))
        | timeRecorderStateOn =>
          match YorozuyaSession.TimeRecord E (newSession.parse page).1 timeRecorderToOff
              { st := st1, posts := [loginForm c] } with
          | (w, _, some err) =>
            (w, respond http_StatusInternalServerError
              (.simpleMsg ("Internal server error: " ++ err)))
          | (w, s, none) =>
            (w, respond http_StatusOK (.YorozuyaStatus "OK" s.startTime s.leaveTime))
        | timeRecorderStateEnd =>
          ({ st := st1, posts := [loginForm c] },
            respond http_StatusBadRequest (.simpleMsg "本日は退勤済みです"))
        | timeRecorderStateUnknown =>
          ({ st := st1, posts := [loginForm c] },
            respond http_StatusInternalServerError
              (.simpleMsg "unknown state: buttons not found"))) := by
  have hL := Login_ok E newSession c { st := st, posts := [] } st1 page hpost
  rw [parse_ok_eq newSession page hauth] at hL
  simp only [List.nil_append] at hL
  unfold TimeRecorderToggle
  simp only [hdec, NewYorozuyaSession, hjar, hL]

/-- The toggle handler after a login that fails. -/
theorem toggle_login_failed {σ : Type} (E : Env σ) (st : σ) (req : String)
    (c : YorozuyaCredentials) (w : World σ) (s : YorozuyaSession) (err : String)
    (hdec : E.jsonDecode req = some c) (hjar : E.cookiejarNew = none)
    (hL : YorozuyaSession.Login E newSession c { st := st, posts := [] } = (w, s, some err)) :
    TimeRecorderToggle E st req =
      (w, respond http_StatusInternalServerError (.simpleMsg ("Login error: " ++ err))) := by
  unfold TimeRecorderToggle
  simp only [hdec, NewYorozuyaSession, hjar, hL]

theorem NewYorozuyaSession_ok {σ : Type} {E : Env σ} {s : YorozuyaSession}
    (h : NewYorozuyaSession E = .ok s) : s = newSession := by
  unfold NewYorozuyaSession at h
  split at h
  · simp at h
  · simp only [Except.ok.injEq] at h
    exact h.symm

theorem TimeRecord_posts {σ : Type} (E : Env σ) (s : YorozuyaSession) (typ : timeRecorderType)
    (w : World σ) :
    (YorozuyaSession.TimeRecord E s typ w).1.posts = w.posts ++ [stampLit s typ] := by
  rcases hP : E.PostForm w.st (stampLit s typ) with ⟨st1, err | page⟩
  · rw [TimeRecord_error E s typ w st1 err hP]
  · rw [TimeRecord_ok E s typ w st1 page hP]

/-- The world the toggle handler leaves after a stamping call is the one the
call left. -/
theorem toggle_branch_world {σ : Type} (r : World σ × YorozuyaSession × Option String) :
    (match r with
      | (w, _, some err) =>
        (w, respond http_StatusInternalServerError
          (.simpleMsg ("Internal server error: " ++ err)))
      | (w, s, none) =>
        (w, respond http_StatusOK (.YorozuyaStatus "OK" s.startTime s.leaveTime))).1 = r.1 := by
  rcases r with ⟨w, s, _ | err⟩ <;> rfl

/-! ## The claims -/

/-- C1: for every session and every document body, `parse` returns the error
"unauthorized" exactly when the body does not contain the marker
`<div class="user_name">`, and returns no error exactly when it does; nothing
else in the body (CSRF fields, time stamps) has a say. -/
theorem parse_fails_iff_marker_absent (s : YorozuyaSession) (body : String) :
    ((s.parse body).2 = some "unauthorized" ↔
      ¬ ∃ a b : List Char, body.data = a ++ authorizedText.data ++ b) ∧
    ((s.parse body).2 = none ↔
      ∃ a b : List Char, body.data = a ++ authorizedText.data ++ b) := by
  rw [← strings_Contains_iff]
  cases h : strings_Contains body authorizedText with
  | false => simp [parse_unauthorized s body h]
  | true => simp [(parse_authorized s body h).1]

/-- C2: for a freshly created session and a document with the marker, the state
after `parse` is Off when neither time pattern matches, On when only the
arrival pattern matches, End when both match and Unknown when only the
departure pattern matches. -/
theorem parse_new_session_state_table {σ : Type} (E : Env σ) (s : YorozuyaSession)
    (page : String) (hs : NewYorozuyaSession E = .ok s)
    (hauth : strings_Contains page authorizedText = true) :
    (timeRecordStartRegexp.FindStringSubmatch page = none ∧
        timeRecordLeaveRegexp.FindStringSubmatch page = none →
      (s.parse page).1.state = timeRecorderStateOff) ∧
    ((timeRecordStartRegexp.FindStringSubmatch page).isSome = true ∧
        timeRecordLeaveRegexp.FindStringSubmatch page = none →
      (s.parse page).1.state = timeRecorderStateOn) ∧
    ((timeRecordStartRegexp.FindStringSubmatch page).isSome = true ∧
        (timeRecordLeaveRegexp.FindStringSubmatch page).isSome = true →
      (s.parse page).1.state = timeRecorderStateEnd) ∧
    (timeRecordStartRegexp.FindStringSubmatch page = none ∧
        (timeRecordLeaveRegexp.FindStringSubmatch page).isSome = true →
      (s.parse page).1.state = timeRecorderStateUnknown) := by
  rw [NewYorozuyaSession_ok hs, parse_new_state page hauth]
  refine ⟨?_, ?_, ?_, ?_⟩
  · rintro ⟨h1, h2⟩
    simp [h1, h2]
  · rintro ⟨h1, h2⟩
    simp [h1, h2]
  · rintro ⟨h1, h2⟩
    simp [h1, h2]
  · rintro ⟨h1, h2⟩
    simp [h1, h2]

theorem parse_new_session_state_table_witness :
    (newSession.parse pageOff).1.state = timeRecorderStateOff ∧
    (newSession.parse pageOn).1.state = timeRecorderStateOn ∧
    (newSession.parse pageEnd).1.state = timeRecorderStateEnd ∧
    (newSession.parse pageLeaveOnly).1.state = timeRecorderStateUnknown :=
  ⟨(parse_new_session_state_table (scriptedEnv []) newSession pageOff rfl (by decide)).1
      ⟨by decide, by decide⟩,
    (parse_new_session_state_table (scriptedEnv []) newSession pageOn rfl (by decide)).2.1
      ⟨by decide, by decide⟩,
    (parse_new_session_state_table (scriptedEnv []) newSession pageEnd rfl (by decide)).2.2.1
      ⟨by decide, by decide⟩,
    (parse_new_session_state_table (scriptedEnv []) newSession pageLeaveOnly rfl
      (by decide)).2.2.2 ⟨by decide, by decide⟩⟩

/-- C3: when the login page carries the marker and a CSRF field, the toggle
handler posts exactly two forms, the login form and then one stamping form
made of module=timerecorder, action=timerecorder, the CSRF pair captured from
the login page and timerecorder_stamping_type, which is "1" when the login
page shows no time (state Off) and "2" when it shows the arrival time only
(state On). -/
theorem toggle_issues_one_stamp {σ : Type} (E : Env σ) (st st1 : σ) (req page : String)
    (c : YorozuyaCredentials) (m : List String)
    (hdec : E.jsonDecode req = some c) (hjar : E.cookiejarNew = none)
    (hpost : E.PostForm st (loginForm c) = (st1, .ok page))
    (hauth : strings_Contains page authorizedText = true)
    (hcsrf : csrfRegexp.FindStringSubmatch page = some m) :
    (timeRecordStartRegexp.FindStringSubmatch page = none ∧
        timeRecordLeaveRegexp.FindStringSubmatch page = none →
      (TimeRecorderToggle E st req).1.posts =
        [loginForm c,
          [("module", "timerecorder"), ("action", "timerecorder"),
            (m.getD 1 "", m.getD 2 ""), ("timerecorder_stamping_type", "1")]]) ∧
    ((timeRecordStartRegexp.FindStringSubmatch page).isSome = true ∧
        timeRecordLeaveRegexp.FindStringSubmatch page = none →
      (TimeRecorderToggle E st req).1.posts =
        [loginForm c,
          [("module", "timerecorder"), ("action", "timerecorder"),
            (m.getD 1 "", m.getD 2 ""), ("timerecorder_stamping_type", "2")]]) := by
  obtain ⟨-, hk, hv, -, -, -⟩ := parse_authorized newSession page hauth
  rw [hcsrf] at hk hv
  simp only at hk hv
  obtain ⟨k, v, -, -, hm1, -⟩ := csrfRegexp_captures hcsrf
  obtain ⟨n1, n2, n3⟩ := sectag_ne_fixed k
  rw [← hm1] at n1 n2 n3
  have hlit : ∀ typ : timeRecorderType,
      stampLit (newSession.parse page).1 typ =
        stampForm (m.getD 1 "") (m.getD 2 "") (strconv_Itoa typ) := by
    intro typ
    unfold stampLit
    rw [hk, hv]
    exact stampForm_lit _ _ _ n1 n2 n3
  have hT := toggle_login_ok E st st1 req page c hdec hjar hpost hauth
  have hS := parse_new_state page hauth
  constructor
  · rintro ⟨h1, h2⟩
    rw [h1, h2] at hS
    simp only [Option.isSome] at hS
    rw [hS] at hT
    simp only at hT
    rw [hT, toggle_branch_world, TimeRecord_posts, hlit]
    rfl
  · rintro ⟨h1, h2⟩
    rw [Option.isSome_iff_exists] at h1
    obtain ⟨m0, h1⟩ := h1
    rw [h1, h2] at hS
    simp only [Option.isSome] at hS
    rw [hS] at hT
    simp only at hT
    rw [hT, toggle_branch_world, TimeRecord_posts, hlit]
    rfl

theorem toggle_issues_one_stamp_witness :
    (TimeRecorderToggle (scriptedEnv [pageOff, pageOn]) 0 "").1.posts =
        [loginForm someCredentials,
          [("module", "timerecorder"), ("action", "timerecorder"),
            ("__sectag_0a1", "9f"), ("timerecorder_stamping_type", "1")]] ∧
    (TimeRecorderToggle (scriptedEnv [pageOn, pageEnd]) 0 "").1.posts =
        [loginForm someCredentials,
          [("module", "timerecorder"), ("action", "timerecorder"),
            ("__sectag_0a1", "9f"), ("timerecorder_stamping_type", "2")]] :=
  ⟨(toggle_issues_one_stamp (scriptedEnv [pageOff, pageOn]) 0 1 "" pageOff someCredentials
      ["name=\"__sectag_0a1\" value=\"9f\"", "__sectag_0a1", "9f"]
      rfl rfl rfl (by decide) (by decide)).1 ⟨by decide, by decide⟩,
    (toggle_issues_one_stamp (scriptedEnv [pageOn, pageEnd]) 0 1 "" pageOn someCredentials
      ["name=\"__sectag_0a1\" value=\"9f\"", "__sectag_0a1", "9f"]
      rfl rfl rfl (by decide) (by decide)).2 ⟨by decide, by decide⟩⟩

/-- C4: when the login page shows both times (state End) the toggle handler
answers 400, and when it shows the departure time without the arrival time
(state Unknown) it answers 500; in both cases the login form is the only form
posted. -/
theorem toggle_end_unknown_no_stamp {σ : Type} (E : Env σ) (st st1 : σ) (req page : String)
    (c : YorozuyaCredentials)
    (hdec : E.jsonDecode req = some c) (hjar : E.cookiejarNew = none)
    (hpost : E.PostForm st (loginForm c) = (st1, .ok page))
    (hauth : strings_Contains page authorizedText = true) :
    ((timeRecordStartRegexp.FindStringSubmatch page).isSome = true ∧
        (timeRecordLeaveRegexp.FindStringSubmatch page).isSome = true →
      (TimeRecorderToggle E st req).1.posts = [loginForm c] ∧
      (TimeRecorderToggle E st req).2 =
        { code := 400, obj := .simpleMsg "本日は退勤済みです" }) ∧
    (timeRecordStartRegexp.FindStringSubmatch page = none ∧
        (timeRecordLeaveRegexp.FindStringSubmatch page).isSome = true →
      (TimeRecorderToggle E st req).1.posts = [loginForm c] ∧
      (TimeRecorderToggle E st req).2 =
        { code := 500, obj := .simpleMsg "unknown state: buttons not found" }) := by
  have hT := toggle_login_ok E st st1 req page c hdec hjar hpost hauth
  have hS := parse_new_state page hauth
  constructor
  · rintro ⟨h1, h2⟩
    rw [h1, h2] at hS
    rw [hS] at hT
    simp only at hT
    rw [hT]
    exact ⟨rfl, rfl⟩
  · rintro ⟨h1, h2⟩
    rw [h1, h2] at hS
    simp only [Option.isSome] at hS
    rw [hS] at hT
    simp only at hT
    rw [hT]
    exact ⟨rfl, rfl⟩

theorem toggle_end_unknown_no_stamp_witness :
    ((TimeRecorderToggle (scriptedEnv [pageEnd]) 0 "").1.posts = [loginForm someCredentials] ∧
      (TimeRecorderToggle (scriptedEnv [pageEnd]) 0 "").2 =
        { code := 400, obj := .simpleMsg "本日は退勤済みです" }) ∧
    ((TimeRecorderToggle (scriptedEnv [pageLeaveOnly]) 0 "").1.posts =
        [loginForm someCredentials] ∧
      (TimeRecorderToggle (scriptedEnv [pageLeaveOnly]) 0 "").2 =
        { code := 500, obj := .simpleMsg "unknown state: buttons not found" }) :=
  ⟨(toggle_end_unknown_no_stamp (scriptedEnv [pageEnd]) 0 1 "" pageEnd someCredentials
      rfl rfl rfl (by decide)).1 ⟨by decide, by decide⟩,
    (toggle_end_unknown_no_stamp (scriptedEnv [pageLeaveOnly]) 0 1 "" pageLeaveOnly
      someCredentials rfl rfl rfl (by decide)).2 ⟨by decide, by decide⟩⟩

/-- C5: whatever the request and however the portal behaves, the status handler
posts at most one form; a form it posts is the login form, whose module is
"login", and never a form whose module is "timerecorder". -/
theorem status_never_stamps {σ : Type} (E : Env σ) (st : σ) (req : String) :
    (TimeRecorderStatus E st req).1.posts.length ≤ 1 ∧
    ∀ f ∈ (TimeRecorderStatus E st req).1.posts,
      (∃ c, E.jsonDecode req = some c ∧ f = loginForm c) ∧
      f.get "module" = some "login" ∧ f.get "module" ≠ some "timerecorder" := by
  have key : (TimeRecorderStatus E st req).1.posts = [] ∨
      ∃ c, E.jsonDecode req = some c ∧ (TimeRecorderStatus E st req).1.posts = [loginForm c] := by
    unfold TimeRecorderStatus
    cases hdec : E.jsonDecode req with
    | none => exact Or.inl rfl
    | some c =>
      cases hjar : E.cookiejarNew with
      | some e =>
        left
        simp only [NewYorozuyaSession, hjar]
      | none =>
        right
        refine ⟨c, rfl, ?_⟩
        simp only [NewYorozuyaSession, hjar]
        rcases hP : E.PostForm st (loginForm c) with ⟨st1, err | page⟩
        · rw [Login_error E newSession c _ st1 err hP]
          rfl
        · rw [Login_ok E newSession c _ st1 page hP]
          rcases newSession.parse page with ⟨s1, _ | e⟩ <;> rfl
  rcases key with h | ⟨c, hc, h⟩
  · rw [h]
    simp
  · rw [h]
    refine ⟨by simp, ?_⟩
    intro f hf
    simp only [List.mem_singleton] at hf
    subst hf
    refine ⟨⟨c, hc, rfl⟩, ?_, ?_⟩
    · simp [Form.get, loginForm]
    · simp [Form.get, loginForm]

/-- C6: for a request that decodes to credentials, when the body of the login
response lacks the marker the toggle handler answers 500 with the message
"Login error: unauthorized" and has posted the login form only. -/
theorem toggle_unauthorized_login {σ : Type} (E : Env σ) (st st1 : σ) (req page : String)
    (c : YorozuyaCredentials)
    (hdec : E.jsonDecode req = some c) (hjar : E.cookiejarNew = none)
    (hpost : E.PostForm st (loginForm c) = (st1, .ok page))
    (hauth : strings_Contains page authorizedText = false) :
    (TimeRecorderToggle E st req).2 =
      { code := 500, obj := .simpleMsg "Login error: unauthorized" } ∧
    (TimeRecorderToggle E st req).1.posts = [loginForm c] := by
  have hL := Login_ok E newSession c { st := st, posts := [] } st1 page hpost
  rw [parse_unauthorized newSession page hauth] at hL
  rw [toggle_login_failed E st req c _ _ _ hdec hjar hL]
  exact ⟨rfl, rfl⟩

theorem toggle_unauthorized_login_witness :
    (TimeRecorderToggle (scriptedEnv [pageDenied]) 0 "").2 =
      { code := 500, obj := .simpleMsg "Login error: unauthorized" } ∧
    (TimeRecorderToggle (scriptedEnv [pageDenied]) 0 "").1.posts = [loginForm someCredentials] :=
  toggle_unauthorized_login (scriptedEnv [pageDenied]) 0 1 "" pageDenied someCredentials
    rfl rfl rfl (by decide)

/-- C10: parsing a document a second time leaves the CSRF pair that the first
parse left, for every session and every document, and two freshly created
sessions that parse the same document end with the same pair, the one
captured from the document (or the empty pair when the pattern does not
match). -/
theorem parse_csrf_idempotent {σ : Type} (E1 E2 : Env σ) (s s1 s2 : YorozuyaSession)
    (page : String) (hauth : strings_Contains page authorizedText = true)
    (h1 : NewYorozuyaSession E1 = .ok s1) (h2 : NewYorozuyaSession E2 = .ok s2) :
    (((s.parse page).1.parse page).1.csrfKey = (s.parse page).1.csrfKey ∧
      ((s.parse page).1.parse page).1.csrfValue = (s.parse page).1.csrfValue) ∧
    ((s1.parse page).1.csrfKey = (s2.parse page).1.csrfKey ∧
      (s1.parse page).1.csrfValue = (s2.parse page).1.csrfValue) ∧
    ((s1.parse page).1.csrfKey, (s1.parse page).1.csrfValue) =
      (match csrfRegexp.FindStringSubmatch page with
        | some m => (m.getD 1 "", m.getD 2 "")
        | none => ("", "")) := by
  rw [NewYorozuyaSession_ok h1, NewYorozuyaSession_ok h2]
  obtain ⟨-, k1, v1, -, -, -⟩ := parse_authorized s page hauth
  obtain ⟨-, k2, v2, -, -, -⟩ := parse_authorized (s.parse page).1 page hauth
  obtain ⟨-, k3, v3, -, -, -⟩ := parse_authorized newSession page hauth
  refine ⟨⟨?_, ?_⟩, ⟨rfl, rfl⟩, ?_⟩
  · rw [k2]
    cases hc : csrfRegexp.FindStringSubmatch page with
    | none => rfl
    | some m =>
      rw [k1, hc]
  · rw [v2]
    cases hc : csrfRegexp.FindStringSubmatch page with
    | none => rfl
    | some m =>
      rw [v1, hc]
  · rw [k3, v3]
    cases hc : csrfRegexp.FindStringSubmatch page with
    | none => rfl
    | some m => rfl

theorem parse_csrf_idempotent_witness :
    strings_Contains pageOn authorizedText = true ∧
    (((newSession.parse pageOn).1.parse pageOn).1.csrfKey = (newSession.parse pageOn).1.csrfKey ∧
      ((newSession.parse pageOn).1.parse pageOn).1.csrfValue =
        (newSession.parse pageOn).1.csrfValue) ∧
    ((newSession.parse pageOn).1.csrfKey = (newSession.parse pageOn).1.csrfKey ∧
      (newSession.parse pageOn).1.csrfValue = (newSession.parse pageOn).1.csrfValue) ∧
    ((newSession.parse pageOn).1.csrfKey, (newSession.parse pageOn).1.csrfValue) =
      (match csrfRegexp.FindStringSubmatch pageOn with
        | some m => (m.getD 1 "", m.getD 2 "")
        | none => ("", "")) :=
  ⟨by decide,
    parse_csrf_idempotent (scriptedEnv []) (scriptedEnv [pageOn]) newSession newSession
      newSession pageOn (by decide) rfl rfl⟩

/-- C7, as stated, fails: a session that has parsed `pageOn` (arrival 09:00, a
CSRF field) and then parses `pageBare`, which has the marker and matches no
pattern, still holds the arrival time and the CSRF key of the first page, not
the absent fields of the second; and the toggle handler, answered with
`pageOn` at login and `pageBare` after the stamp, reports the arrival time
09:00 that the post-stamp page does not show. -/
theorem parse_keeps_unmatched_fields :
    strings_Contains pageBare authorizedText = true ∧
    csrfRegexp.FindStringSubmatch pageBare = none ∧
    timeRecordStartRegexp.FindStringSubmatch pageBare = none ∧
    ((newSession.parse pageOn).1.parse pageBare).1.startTime = "09:00" ∧
    ((newSession.parse pageOn).1.parse pageBare).1.startTime ≠
      (match timeRecordStartRegexp.FindStringSubmatch pageBare with
        | some m => m.getD 1 ""
        | none => "") ∧
    ((newSession.parse pageOn).1.parse pageBare).1.csrfKey ≠
      (match csrfRegexp.FindStringSubmatch pageBare with
        | some m => m.getD 1 ""
        | none => "") ∧
    ((newSession.parse pageOn).1.parse pageBare).1.state ≠ (newSession.parse pageBare).1.state ∧
    (TimeRecorderToggle (scriptedEnv [pageOn, pageBare]) 0 "").2 =
      { code := 200, obj := .YorozuyaStatus "OK" "09:00" "" } := by
  decide

/-- C7, amended: for every prior session and every document with the marker,
`parse` succeeds and leaves in each of csrfKey, csrfValue, startTime and
leaveTime the capture of the field's pattern when it matches the document and
the value the session held before when it does not, and the state is the
table entry for the resulting two times; for a new session a field whose
pattern does not match is therefore empty. A stamping call whose form is
answered with such a document returns no error and leaves exactly that
session. When the toggle handler stamps (login page with the marker and no
departure time, and the one stamping form it posts, with direction ToOn if the
login page shows no arrival time and ToOff if it does, answered by a page with
the marker), it answers 200 and reports for each time the capture from the
post-stamp page when its pattern matches there and the capture from the login
page (empty if none) otherwise. -/
theorem parse_fields_captured_or_kept {σ : Type} (E : Env σ) (st st1 : σ)
    (req page1 page2 : String) (c : YorozuyaCredentials) (s : YorozuyaSession)
    (hdec : E.jsonDecode req = some c) (hjar : E.cookiejarNew = none)
    (hpost1 : E.PostForm st (loginForm c) = (st1, .ok page1))
    (hauth1 : strings_Contains page1 authorizedText = true)
    (hleave1 : timeRecordLeaveRegexp.FindStringSubmatch page1 = none)
    (hpost2 : (E.PostForm st1 (stampLit (newSession.parse page1).1
        (match timeRecordStartRegexp.FindStringSubmatch page1 with
          | some _ => timeRecorderToOff
          | none => timeRecorderToOn))).2 = .ok page2)
    (hauth2 : strings_Contains page2 authorizedText = true) :
    ((s.parse page2).2 = none ∧
      (s.parse page2).1.csrfKey =
        (match csrfRegexp.FindStringSubmatch page2 with
          | some m => m.getD 1 ""
          | none => s.csrfKey) ∧
      (s.parse page2).1.csrfValue =
        (match csrfRegexp.FindStringSubmatch page2 with
          | some m => m.getD 2 ""
          | none => s.csrfValue) ∧
      (s.parse page2).1.startTime =
        (match timeRecordStartRegexp.FindStringSubmatch page2 with
          | some m => m.getD 1 ""
          | none => s.startTime) ∧
      (s.parse page2).1.leaveTime =
        (match timeRecordLeaveRegexp.FindStringSubmatch page2 with
          | some m => m.getD 1 ""
          | none => s.leaveTime) ∧
      (s.parse page2).1.state =
        stateOf (s.parse page2).1.startTime (s.parse page2).1.leaveTime) ∧
    ((newSession.parse page2).1.csrfKey =
        (match csrfRegexp.FindStringSubmatch page2 with
          | some m => m.getD 1 ""
          | none => "") ∧
      (newSession.parse page2).1.csrfValue =
        (match csrfRegexp.FindStringSubmatch page2 with
          | some m => m.getD 2 ""
          | none => "") ∧
      (newSession.parse page2).1.startTime =
        (match timeRecordStartRegexp.FindStringSubmatch page2 with
          | some m => m.getD 1 ""
          | none => "") ∧
      (newSession.parse page2).1.leaveTime =
        (match timeRecordLeaveRegexp.FindStringSubmatch page2 with
          | some m => m.getD 1 ""
          | none => "")) ∧
    (∀ (typ : timeRecorderType) (w : World σ),
      (E.PostForm w.st (stampLit s typ)).2 = .ok page2 →
      (YorozuyaSession.TimeRecord E s typ w).2.2 = none ∧
      (YorozuyaSession.TimeRecord E s typ w).2.1 = (s.parse page2).1) ∧
    (TimeRecorderToggle E st req).2 =
      { code := 200,
        obj := .YorozuyaStatus "OK"
          (match timeRecordStartRegexp.FindStringSubmatch page2 with
            | some m => m.getD 1 ""
            | none =>
              match timeRecordStartRegexp.FindStringSubmatch page1 with
              | some m => m.getD 1 ""
              | none => "")
          (match timeRecordLeaveRegexp.FindStringSubmatch page2 with
            | some m => m.getD 1 ""
            | none => "") } := by
  have hrec : ∀ (s0 : YorozuyaSession) (typ : timeRecorderType) (w : World σ),
      (E.PostForm w.st (stampLit s0 typ)).2 = .ok page2 →
      YorozuyaSession.TimeRecord E s0 typ w =
        ({ st := (E.PostForm w.st (stampLit s0 typ)).1,
           posts := w.posts ++ [stampLit s0 typ] }, (s0.parse page2).1, none) := by
    intro s0 typ w h
    rw [TimeRecord_ok E s0 typ w _ page2 (Prod.ext rfl h)]
    rw [parse_ok_eq s0 page2 hauth2]
  refine ⟨parse_authorized s page2 hauth2, ?_, ?_, ?_⟩
  · obtain ⟨-, k, v, a, l, -⟩ := parse_authorized newSession page2 hauth2
    exact ⟨k, v, a, l⟩
  · intro typ w h
    rw [hrec s typ w h]
    exact ⟨rfl, rfl⟩
  · obtain ⟨-, -, -, a1, l1, -⟩ := parse_authorized newSession page1 hauth1
    obtain ⟨-, -, -, a2, l2, -⟩ := parse_authorized (newSession.parse page1).1 page2 hauth2
    have e1 : newSession.startTime = "" := rfl
    have e2 : newSession.leaveTime = "" := rfl
    rw [a1, e1] at a2
    rw [l1, hleave1, e2] at l2
    have hT := toggle_login_ok E st st1 req page1 c hdec hjar hpost1 hauth1
    have hS := parse_new_state page1 hauth1
    rw [hleave1] at hS
    cases hms : timeRecordStartRegexp.FindStringSubmatch page1 with
    | none =>
      rw [hms] at hS a2 hpost2
      simp only [Option.isSome] at hS
      simp only at hpost2
      rw [hS] at hT
      simp only [hrec _ timeRecorderToOn { st := st1, posts := [loginForm c] } hpost2] at hT
      rw [hT]
      simp only [respond, http_StatusOK, a2, l2]
    | some m0 =>
      rw [hms] at hS a2 hpost2
      simp only [Option.isSome] at hS
      simp only at hpost2
      rw [hS] at hT
      simp only [hrec _ timeRecorderToOff { st := st1, posts := [loginForm c] } hpost2] at hT
      rw [hT]
      simp only [respond, http_StatusOK, a2, l2]

theorem parse_fields_captured_or_kept_witness :
    (TimeRecorderToggle
        directionEnv 0 "").2 =
      { code := 200,
        obj := .YorozuyaStatus "OK"
          (match timeRecordStartRegexp.FindStringSubmatch pageEnd with
            | some m => m.getD 1 ""
            | none =>
              match timeRecordStartRegexp.FindStringSubmatch pageOn with
              | some m => m.getD 1 ""
              | none => "")
          (match timeRecordLeaveRegexp.FindStringSubmatch pageEnd with
            | some m => m.getD 1 ""
            | none => "") } :=
  (parse_fields_captured_or_kept
    directionEnv 0 1 "" pageOn pageEnd someCredentials newSession rfl rfl rfl (by decide)
    (by decide) rfl (by decide)).2.2.2

/-- C8, as stated, fails: the session left by a login on `pageBare` (marker, no
CSRF field) holds an empty CSRF pair, and `TimeRecord` on it, in either
direction, returns no error when the portal answers with a page that carries
the marker; the form posted has the empty pair in the place of the CSRF
field. The toggle handler, given `pageBare` at login, stamps and answers 200. -/
theorem TimeRecord_empty_token_succeeds :
    (newSession.parse pageBare).1.csrfKey = "" ∧
    (newSession.parse pageBare).1.csrfValue = "" ∧
    (YorozuyaSession.TimeRecord (scriptedEnv [pageOn]) (newSession.parse pageBare).1
      timeRecorderToOn { st := 0, posts := [] }).2.2 = none ∧
    (YorozuyaSession.TimeRecord (scriptedEnv [pageOn]) (newSession.parse pageBare).1
      timeRecorderToOff { st := 0, posts := [] }).2.2 = none ∧
    (YorozuyaSession.TimeRecord (scriptedEnv [pageOn]) (newSession.parse pageBare).1
      timeRecorderToOn { st := 0, posts := [] }).1.posts =
        [[("module", "timerecorder"), ("action", "timerecorder"), ("", ""),
          ("timerecorder_stamping_type", "1")]] ∧
    (TimeRecorderToggle (scriptedEnv [pageBare, pageOn]) 0 "").2 =
      { code := 200, obj := .YorozuyaStatus "OK" "09:00" "" } := by
  decide

/-- C8, amended: on a session whose CSRF pair is empty, `TimeRecord` in any
direction posts the stamping form with the empty pair in the place of the CSRF
field, and what it returns is decided by the answer alone: the transport
error if the request fails, "unauthorized" if the body lacks the marker, and
no error if the body carries the marker. -/
theorem TimeRecord_empty_token_outcome {σ : Type} (E : Env σ) (s : YorozuyaSession)
    (typ : timeRecorderType) (w : World σ)
    (hk : s.csrfKey = "") (hv : s.csrfValue = "") :
    (YorozuyaSession.TimeRecord E s typ w).1.posts =
      w.posts ++ [[("module", "timerecorder"), ("action", "timerecorder"), ("", ""),
        ("timerecorder_stamping_type", strconv_Itoa typ)]] ∧
    (∀ err, (E.PostForm w.st (stampForm "" "" (strconv_Itoa typ))).2 = .error err →
      (YorozuyaSession.TimeRecord E s typ w).2.2 = some err) ∧
    (∀ page, (E.PostForm w.st (stampForm "" "" (strconv_Itoa typ))).2 = .ok page →
      strings_Contains page authorizedText = false →
      (YorozuyaSession.TimeRecord E s typ w).2.2 = some "unauthorized") ∧
    (∀ page, (E.PostForm w.st (stampForm "" "" (strconv_Itoa typ))).2 = .ok page →
      strings_Contains page authorizedText = true →
      (YorozuyaSession.TimeRecord E s typ w).2.2 = none) := by
  have hlit : stampLit s typ = stampForm "" "" (strconv_Itoa typ) := by
    unfold stampLit
    rw [hk, hv]
    exact stampForm_lit_empty _
  refine ⟨?_, ?_, ?_, ?_⟩
  · rw [TimeRecord_posts, hlit]
    rfl
  · intro err h
    rcases hP : E.PostForm w.st (stampForm "" "" (strconv_Itoa typ)) with ⟨st1, r⟩
    rw [hP] at h
    simp only at h
    subst h
    rw [← hlit] at hP
    rw [TimeRecord_error E s typ w st1 err hP]
  · intro page h hno
    rcases hP : E.PostForm w.st (stampForm "" "" (strconv_Itoa typ)) with ⟨st1, r⟩
    rw [hP] at h
    simp only at h
    subst h
    rw [← hlit] at hP
    rw [TimeRecord_ok E s typ w st1 page hP, parse_unauthorized s page hno]
  · intro page h hyes
    rcases hP : E.PostForm w.st (stampForm "" "" (strconv_Itoa typ)) with ⟨st1, r⟩
    rw [hP] at h
    simp only at h
    subst h
    rw [← hlit] at hP
    rw [TimeRecord_ok E s typ w st1 page hP]
    exact (parse_authorized s page hyes).1

theorem TimeRecord_empty_token_outcome_witness :
    (YorozuyaSession.TimeRecord (scriptedEnv [pageOn]) (newSession.parse pageBare).1
      timeRecorderToOn { st := 0, posts := [] }).2.2 = none :=
  (TimeRecord_empty_token_outcome (scriptedEnv [pageOn]) (newSession.parse pageBare).1
    timeRecorderToOn { st := 0, posts := [] } (by decide) (by decide)).2.2.2 pageOn rfl
    (by decide)

/-! ## Sessions reachable by calls -/

theorem parse_outcome (s : YorozuyaSession) (page : String) :
    CallOutcome s (s.parse page).1 (s.parse page).2 := by
  cases h : strings_Contains page authorizedText with
  | false =>
    rw [parse_unauthorized s page h]
    exact Or.inl ⟨by simp, rfl⟩
  | true =>
    obtain ⟨he, -, -, -, -, hs⟩ := parse_authorized s page h
    exact Or.inr ⟨he, hs⟩

theorem Login_outcome {σ : Type} (E : Env σ) (s : YorozuyaSession) (c : YorozuyaCredentials)
    (w : World σ) :
    CallOutcome s (YorozuyaSession.Login E s c w).2.1 (YorozuyaSession.Login E s c w).2.2 := by
  rcases hP : E.PostForm w.st (loginForm c) with ⟨st1, err | page⟩
  · rw [Login_error E s c w st1 err hP]
    exact Or.inl ⟨by simp, rfl⟩
  · rw [Login_ok E s c w st1 page hP]
    exact parse_outcome s page

theorem TimeRecord_outcome {σ : Type} (E : Env σ) (s : YorozuyaSession)
    (typ : timeRecorderType) (w : World σ) :
    CallOutcome s (YorozuyaSession.TimeRecord E s typ w).2.1
      (YorozuyaSession.TimeRecord E s typ w).2.2 := by
  rcases hP : E.PostForm w.st (stampLit s typ) with ⟨st1, err | page⟩
  · rw [TimeRecord_error E s typ w st1 err hP]
    exact Or.inl ⟨by simp, rfl⟩
  · rw [TimeRecord_ok E s typ w st1 page hP]
    exact parse_outcome s page

theorem RunInv_step {σ : Type} (E : Env σ) (r : Run σ) (call : Call) (h : RunInv r) :
    RunInv (Run.step E r call) := by
  have key : ∀ (w : World σ) (s1 : YorozuyaSession) (err : Option String),
      CallOutcome r.session s1 err →
      RunInv { world := w, session := s1, errs := r.errs ++ [err] } := by
    intro w s1 err ho
    rcases ho with ⟨he, hs⟩ | ⟨he, hs⟩
    · subst hs
      constructor
      · intro hall
        exact h.1 (fun e hm => hall e (by simp [hm]))
      · rintro ⟨e, hm, hn⟩
        simp only [List.mem_append, List.mem_singleton] at hm
        rcases hm with hm | hm
        · exact h.2 ⟨e, hm, hn⟩
        · exact absurd (hm ▸ hn) he
    · subst he
      constructor
      · intro hall
        exact absurd rfl (hall none (by simp))
      · intro _
        exact hs
  cases call with
  | Login c => exact key _ _ _ (Login_outcome E r.session c r.world)
  | TimeRecord typ => exact key _ _ _ (TimeRecord_outcome E r.session typ r.world)

theorem RunInv_runCalls {σ : Type} (E : Env σ) (st : σ) (calls : List Call) :
    RunInv (runCalls E st calls) := by
  have gen : ∀ (cs : List Call) (r : Run σ), RunInv r → RunInv (cs.foldl (Run.step E) r) := by
    intro cs
    induction cs with
    | nil => intro r hr; exact hr
    | cons c cs ih => intro r hr; exact ih _ (RunInv_step E r c hr)
  exact gen calls _ ⟨fun _ => rfl, by simp⟩

/-- C9, as stated, fails: the newly created session, and the session after a
login that failed, have state Unknown with the departure time absent; and the
state is not determined by which times are present, since with both times
absent the state is Unknown before a successful login and Off after a login
on `pageOff`. -/
theorem new_session_unknown_without_leaveTime :
    ((runCalls (scriptedEnv []) 0 []).session.state = timeRecorderStateUnknown ∧
      (runCalls (scriptedEnv []) 0 []).session.startTime = "" ∧
      (runCalls (scriptedEnv []) 0 []).session.leaveTime = "") ∧
    ((runCalls (scriptedEnv [pageDenied]) 0 [.Login someCredentials]).session.state =
        timeRecorderStateUnknown ∧
      (runCalls (scriptedEnv [pageDenied]) 0 [.Login someCredentials]).session.leaveTime = "") ∧
    ((runCalls (scriptedEnv [pageOff]) 0 [.Login someCredentials]).session.state =
        timeRecorderStateOff ∧
      (runCalls (scriptedEnv [pageOff]) 0 [.Login someCredentials]).session.startTime = "" ∧
      (runCalls (scriptedEnv [pageOff]) 0 [.Login someCredentials]).session.leaveTime = "") := by
  decide

/-- C9, amended: in every session reached from a newly created one by Login and
TimeRecord calls, failed or not, if every call so far has failed the session
is still the new one (state Unknown, both times absent), and if some call has
succeeded the state is the table entry of (startTime present, leaveTime
present); so the state Unknown occurs only with startTime absent, and then
either leaveTime is present or no call has succeeded yet. -/
theorem reachable_state_of_times {σ : Type} (E : Env σ) (st : σ) (calls : List Call) :
    ((∀ e ∈ (runCalls E st calls).errs, e ≠ none) →
      (runCalls E st calls).session = newSession) ∧
    ((∃ e ∈ (runCalls E st calls).errs, e = none) →
      (runCalls E st calls).session.state =
        stateOf (runCalls E st calls).session.startTime
          (runCalls E st calls).session.leaveTime) ∧
    ((runCalls E st calls).session.state = timeRecorderStateUnknown →
      (runCalls E st calls).session.startTime = "" ∧
      ((runCalls E st calls).session.leaveTime ≠ "" ∨
        ∀ e ∈ (runCalls E st calls).errs, e ≠ none)) := by
  obtain ⟨h1, h2⟩ := RunInv_runCalls E st calls
  refine ⟨h1, h2, ?_⟩
  intro hu
  by_cases hall : ∀ e ∈ (runCalls E st calls).errs, e ≠ none
  · rw [h1 hall]
    exact ⟨rfl, Or.inr hall⟩
  · have hex : ∃ e ∈ (runCalls E st calls).errs, e = none := by
      by_contra hne
      exact hall (fun e hm he => hne ⟨e, hm, he⟩)
    have hs := h2 hex
    rw [hu] at hs
    generalize (runCalls E st calls).session.startTime = a at hs ⊢
    generalize (runCalls E st calls).session.leaveTime = b at hs ⊢
    unfold stateOf at hs
    by_cases ha : a = "" <;> by_cases hb : b = "" <;> simp [ha, hb] at hs ⊢

theorem reachable_state_of_times_witness :
    (runCalls (scriptedEnv [pageOn, pageLeaveOnly]) 0
        [.Login someCredentials, .TimeRecord timeRecorderToOff]).session.state =
      stateOf
        (runCalls (scriptedEnv [pageOn, pageLeaveOnly]) 0
          [.Login someCredentials, .TimeRecord timeRecorderToOff]).session.startTime
        (runCalls (scriptedEnv [pageOn, pageLeaveOnly]) 0
          [.Login someCredentials, .TimeRecord timeRecorderToOff]).session.leaveTime :=
  (reachable_state_of_times (scriptedEnv [pageOn, pageLeaveOnly]) 0
    [.Login someCredentials, .TimeRecord timeRecorderToOff]).2.1 ⟨none, by decide, rfl⟩

end Yorozuya
